import Mathlib

/-!
Shallow embedding of the pricing/stock consistency cascade of
`src/backend/products/models.py` (Django models `ProductComponent`, `Product`,
`ProductComposition` and their pre/post-save and post-delete signal handlers).

Records are Lean structures; the database is a `State` of three record lists;
a Django `save()` is modelled as the pre-save hooks applied to the instance,
an upsert of the row, then the post-save hooks, each translated from the
source.  `DecimalField` money values are modelled as `ℚ` (the decimal
arithmetic the source performs on its 10-digit, 2-decimal-place values is
exact, so rationals are a faithful carrier).  `PositiveSmallIntegerField`
counters are modelled as `Nat`.
-/

namespace Flowershop

/-- Status constant `Product.STATUS_REVIEW`. -/
def STATUS_REVIEW : Nat := 1

/-- Status constant `Product.STATUS_AVAILABLE`. -/
def STATUS_AVAILABLE : Nat := 2

/-- Status constant `Product.STATUS_ONLY_ORDER`. -/
def STATUS_ONLY_ORDER : Nat := 3

/-- Status constant `Product.STATUS_UNAVAILABLE`. -/
def STATUS_UNAVAILABLE : Nat := 4

/-- Row of the `ProductComponent` model. -/
structure ProductComponent where
  id : Nat
  title : String
  price : ℚ
  new_arrival : Nat
  quantity_in_stock : Nat
  quantity_of_sold : Nat
  available : Bool
  show_in_filter : Bool
  deriving Repr, DecidableEq

/-- Row of the `Product` model (image/slug fields are irrelevant to the cascade
and omitted). -/
structure Product where
  id : Nat
  category : Nat
  title : String
  price : ℚ
  discount : Nat
  new_price : ℚ
  status : Nat
  deriving Repr, DecidableEq

/-- Row of the `ProductComposition` model; `product` and `component` are the
foreign keys. -/
structure ProductComposition where
  id : Nat
  product : Nat
  component : Nat
  quantity : Nat
  deriving Repr, DecidableEq

/-- The database state relevant to the cascade. -/
structure State where
  components : List ProductComponent
  products : List Product
  compositions : List ProductComposition
  deriving Repr, DecidableEq

/-- Foreign-key resolution of a `ProductComponent` by primary key. -/
def State.findComponent (s : State) (cid : Nat) : Option ProductComponent :=
  s.components.find? (fun c => c.id == cid)

/-- Foreign-key resolution of a `Product` by primary key. -/
def State.findProduct (s : State) (pid : Nat) : Option Product :=
  s.products.find? (fun p => p.id == pid)

/-- `product.productcomposition_set.all()`: the composition rows owned by the
product. -/
def State.productcomposition_set (s : State) (pid : Nat) : List ProductComposition :=
  s.compositions.filter (fun c => c.product == pid)

/-- `component.productcomposition_set.all()`: the composition rows referencing
the component. -/
def State.componentCompositions (s : State) (cid : Nat) : List ProductComposition :=
  s.compositions.filter (fun c => c.component == cid)

/-- Price of a resolved component (`composition.component.price`); a dangling
foreign key, impossible in an intact database, yields 0. -/
def State.componentPrice (s : State) (cid : Nat) : ℚ :=
  match s.findComponent cid with
  | some c => c.price
  | none => 0

/-- Stock of a resolved component (`composition.component.quantity_in_stock`). -/
def State.componentStock (s : State) (cid : Nat) : Nat :=
  match s.findComponent cid with
  | some c => c.quantity_in_stock
  | none => 0

/-- `ProductComposition.get_composition_price`: `self.quantity * self.component.price`. -/
def get_composition_price (s : State) (c : ProductComposition) : ℚ :=
  (c.quantity : ℚ) * s.componentPrice c.component

/-- `Product.get_price`: running sum of `get_composition_price` over the
product's compositions. -/
def get_price (s : State) (pid : Nat) : ℚ :=
  (s.productcomposition_set pid).foldl (fun price c => price + get_composition_price s c) 0

/-- `Product.get_new_price`: `(self.price/100) * (100-self.discount)`. -/
def get_new_price (p : Product) : ℚ :=
  (p.price / 100) * ((100 : ℚ) - (p.discount : ℚ))

/-- `Product.get_available_quantity_of_products`: floor-divide each component's
stock by the composition quantity, skipping compositions with quantity 0, and
take the minimum of the collected values (0 when none were collected). -/
def get_available_quantity_of_products (s : State) (pid : Nat) : Nat :=
  let nums := (s.productcomposition_set pid).filterMap (fun c =>
    if 0 < c.quantity then some (s.componentStock c.component / c.quantity) else none)
  match nums with
  | [] => 0
  | n :: ns => ns.foldl Nat.min n

/-- `Product.get_status`: `STATUS_AVAILABLE` when the available quantity is
positive, else `STATUS_ONLY_ORDER`. -/
def get_status (s : State) (pid : Nat) : Nat :=
  if 0 < get_available_quantity_of_products s pid then STATUS_AVAILABLE else STATUS_ONLY_ORDER

/-- `Product.get_productcomponent_status`: the source loops over the product's
compositions but returns inside the first iteration, so it reports the
availability of the FIRST composition's component only; with no compositions
the Python function falls through and returns `None` (here `none`). -/
def get_productcomponent_status (s : State) (pid : Nat) : Option Bool :=
  match s.productcomposition_set pid with
  | [] => none
  | c :: _ => (s.findComponent c.component).map (fun comp => comp.available)

/-- `ProductComponent.add_new_arrival`: fold `new_arrival` into
`quantity_in_stock` and reset it. -/
def add_new_arrival (c : ProductComponent) : ProductComponent :=
  { c with quantity_in_stock := c.quantity_in_stock + c.new_arrival, new_arrival := 0 }

/-- Upsert of a `Product` row (the ORM UPDATE-or-INSERT performed by `save()`). -/
def storeProduct (s : State) (p : Product) : State :=
  if s.products.any (fun q => q.id == p.id) then
    { s with products := s.products.map (fun q => if q.id == p.id then p else q) }
  else
    { s with products := s.products ++ [p] }

/-- Upsert of a `ProductComponent` row. -/
def storeComponent (s : State) (c : ProductComponent) : State :=
  if s.components.any (fun q => q.id == c.id) then
    { s with components := s.components.map (fun q => if q.id == c.id then c else q) }
  else
    { s with components := s.components ++ [c] }

/-- Upsert of a `ProductComposition` row. -/
def storeComposition (s : State) (c : ProductComposition) : State :=
  if s.compositions.any (fun q => q.id == c.id) then
    { s with compositions := s.compositions.map (fun q => if q.id == c.id then c else q) }
  else
    { s with compositions := s.compositions ++ [c] }

/-- Deletion of a `ProductComposition` row by primary key. -/
def removeComposition (s : State) (cid : Nat) : State :=
  { s with compositions := s.compositions.filter (fun c => !(c.id == cid)) }

/-- `recalculate_new_price`, the `pre_save` receiver for `Product`: when
`get_productcomponent_status is False` force `STATUS_UNAVAILABLE`, then always
recompute `new_price`. -/
def recalculate_new_price (s : State) (p : Product) : Product :=
  let p1 := if get_productcomponent_status s p.id = some false then
      { p with status := STATUS_UNAVAILABLE }
    else p
  { p1 with new_price := get_new_price p1 }

/-- `Product.save()`: the `pre_save` receiver mutates the instance, then the
row is persisted.  The `post_save` receiver `save_orderitem_after_save` only
touches `OrderItem` rows, which are outside the modelled state. -/
def product_save (s : State) (p : Product) : State :=
  storeProduct s (recalculate_new_price s p)

/-- Shared body of `save_product_after_save` and `save_product_after_delete`:
fetch `instance.product`, overwrite its `price` and `status` from the current
rows, and `save()` it. -/
def recalcOwner (s : State) (pid : Nat) : State :=
  match s.findProduct pid with
  | none => s
  | some product =>
      product_save s { product with price := get_price s pid, status := get_status s pid }

/-- A `ProductComposition` write: persist the row, then the `post_save`
receiver `save_product_after_save` recomputes the owning product. -/
def composition_save (s : State) (c : ProductComposition) : State :=
  recalcOwner (storeComposition s c) c.product

/-- A `ProductComposition` delete: remove the row, then the `post_delete`
receiver `save_product_after_delete` recomputes the owning product. -/
def composition_delete (s : State) (c : ProductComposition) : State :=
  recalcOwner (removeComposition s c.id) c.product

/-- `ProductComponent.save()` with the `post_save` cascade run over an explicit
processing order `l` of the referencing compositions: the `pre_save` receiver
`recalculate_quantity_in_stock_before_save` calls `add_new_arrival`, the row is
persisted, then `save_productcomposition` re-saves each referencing
composition. -/
def component_save_order (s : State) (c : ProductComponent) (l : List ProductComposition) :
    State :=
  l.foldl (fun st comp => composition_save st comp) (storeComponent s (add_new_arrival c))

/-- `ProductComponent.save()` processing the referencing compositions in the
order the row set lists them. -/
def component_save (s : State) (c : ProductComponent) : State :=
  component_save_order s c
    ((storeComponent s (add_new_arrival c)).componentCompositions (add_new_arrival c).id)

/-- Deletion of a `ProductComponent`.  `ProductComposition.component` is
declared with `on_delete=models.PROTECT`: the framework rejects the delete with
a `ProtectedError` while any composition row references the component, and the
rejected statement changes nothing. -/
def component_delete (s : State) (cid : Nat) : Except String State :=
  if s.compositions.any (fun c => c.component == cid) then
    Except.error "ProtectedError"
  else
    Except.ok { s with components := s.components.filter (fun c => !(c.id == cid)) }

/-- State seen by a caller that attempts a component delete and keeps its state
when the delete raises. -/
def tryDeleteComponent (s : State) (cid : Nat) : State :=
  match component_delete s cid with
  | Except.ok t => t
  | Except.error _ => s

/-- Spec-side sum (§8 of the spec): Σ `c.quantity × c.component.price` over
the product's compositions, written directly as a sum over the row list. -/
def specCompositionSum (s : State) (pid : Nat) : ℚ :=
  ((s.productcomposition_set pid).map
    (fun c => (c.quantity : ℚ) * s.componentPrice c.component)).sum

/-- Spec-side availability minimum: minimum over ALL the product's compositions
of `floor(component.quantity_in_stock / composition.quantity)` (the spec's
formula, stated without the source's skipping of zero quantities). -/
def specMinAvail (s : State) (pid : Nat) : Nat :=
  match (s.productcomposition_set pid).map
      (fun c => s.componentStock c.component / c.quantity) with
  | [] => 0
  | n :: ns => ns.foldl Nat.min n

/-- Full product re-derivation as performed by the composition hooks followed
by the product `pre_save` hook, on one in-memory record. -/
def deriveProduct (s : State) (q : Product) : Product :=
  recalculate_new_price s { q with price := get_price s q.id, status := get_status s q.id }

/-! Helper lemmas about row upserts and lookups. -/

/-- Searching for a row id after replacing every row with that id finds the
written row exactly when some row carried the id. -/
theorem find?_map_set {α : Type} (idf : α → Nat) (l : List α) (p : α) :
    (l.map (fun q => if idf q == idf p then p else q)).find? (fun q => idf q == idf p)
      = if l.any (fun q => idf q == idf p) then some p else none := by
  induction l with
  | nil => rfl
  | cons a l ih =>
    rw [List.map_cons, List.any_cons]
    cases h : idf a == idf p with
    | true =>
      rw [if_pos rfl]
      have hhead : List.find? (fun q => idf q == idf p)
          (p :: l.map (fun q => if idf q == idf p then p else q)) = some p :=
        List.find?_cons_of_pos _ (beq_self_eq_true (idf p))
      rw [hhead, Bool.true_or, if_pos rfl]
    | false =>
      have h' : ¬(false = true) := by simp
      rw [if_neg h', List.find?_cons_of_neg, ih, Bool.false_or]
      rw [h]
      exact h'

/-- Lookup of a just-upserted product row. -/
theorem findProduct_storeProduct (s : State) (p : Product) :
    (storeProduct s p).findProduct p.id = some p := by
  unfold storeProduct State.findProduct
  by_cases h : s.products.any (fun q => q.id == p.id)
  · rw [if_pos h]
    have := find?_map_set Product.id s.products p
    rw [h] at this
    simpa using this
  · rw [if_neg h]
    have hn : s.products.find? (fun q => q.id == p.id) = none := by
      rw [List.find?_eq_none]
      intro x hx hpx
      exact h (List.any_eq_true.mpr ⟨x, hx, hpx⟩)
    simp [List.find?_append, hn]

/-- Lookup of a just-upserted component row. -/
theorem findComponent_storeComponent (s : State) (c : ProductComponent) :
    (storeComponent s c).findComponent c.id = some c := by
  unfold storeComponent State.findComponent
  by_cases h : s.components.any (fun q => q.id == c.id)
  · rw [if_pos h]
    have := find?_map_set ProductComponent.id s.components c
    rw [h] at this
    simpa using this
  · rw [if_neg h]
    have hn : s.components.find? (fun q => q.id == c.id) = none := by
      rw [List.find?_eq_none]
      intro x hx hpx
      exact h (List.any_eq_true.mpr ⟨x, hx, hpx⟩)
    simp [List.find?_append, hn]

/-! Frame lemmas: each store/hook touches only its own table. -/

theorem storeProduct_components (s : State) (p : Product) :
    (storeProduct s p).components = s.components := by
  unfold storeProduct; split <;> rfl

theorem storeProduct_compositions (s : State) (p : Product) :
    (storeProduct s p).compositions = s.compositions := by
  unfold storeProduct; split <;> rfl

theorem storeComponent_products (s : State) (c : ProductComponent) :
    (storeComponent s c).products = s.products := by
  unfold storeComponent; split <;> rfl

theorem storeComponent_compositions (s : State) (c : ProductComponent) :
    (storeComponent s c).compositions = s.compositions := by
  unfold storeComponent; split <;> rfl

theorem storeComposition_components (s : State) (c : ProductComposition) :
    (storeComposition s c).components = s.components := by
  unfold storeComposition; split <;> rfl

theorem storeComposition_products (s : State) (c : ProductComposition) :
    (storeComposition s c).products = s.products := by
  unfold storeComposition; split <;> rfl

theorem removeComposition_components (s : State) (cid : Nat) :
    (removeComposition s cid).components = s.components := rfl

theorem removeComposition_products (s : State) (cid : Nat) :
    (removeComposition s cid).products = s.products := rfl

theorem recalcOwner_components (s : State) (pid : Nat) :
    (recalcOwner s pid).components = s.components := by
  unfold recalcOwner
  cases s.findProduct pid <;> simp [product_save, storeProduct_components]

theorem recalcOwner_compositions (s : State) (pid : Nat) :
    (recalcOwner s pid).compositions = s.compositions := by
  unfold recalcOwner
  cases s.findProduct pid <;> simp [product_save, storeProduct_compositions]

theorem composition_save_components (s : State) (c : ProductComposition) :
    (composition_save s c).components = s.components := by
  unfold composition_save
  rw [recalcOwner_components, storeComposition_components]

theorem composition_save_compositions (s : State) (c : ProductComposition) :
    (composition_save s c).compositions = (storeComposition s c).compositions := by
  unfold composition_save
  rw [recalcOwner_compositions]

/-! Congruence lemmas: the derived quantities read only the component and
composition tables, never the product table. -/

theorem componentPrice_congr {s t : State} (h : s.components = t.components) (cid : Nat) :
    s.componentPrice cid = t.componentPrice cid := by
  unfold State.componentPrice State.findComponent
  rw [h]

theorem componentStock_congr {s t : State} (h : s.components = t.components) (cid : Nat) :
    s.componentStock cid = t.componentStock cid := by
  unfold State.componentStock State.findComponent
  rw [h]

theorem productcomposition_set_congr {s t : State} (h : s.compositions = t.compositions)
    (pid : Nat) : s.productcomposition_set pid = t.productcomposition_set pid := by
  unfold State.productcomposition_set
  rw [h]

theorem get_price_congr {s t : State} (h1 : s.components = t.components)
    (h2 : s.compositions = t.compositions) (pid : Nat) : get_price s pid = get_price t pid := by
  unfold get_price
  rw [productcomposition_set_congr h2]
  have hf : (fun (price : ℚ) c => price + get_composition_price s c)
      = fun (price : ℚ) c => price + get_composition_price t c := by
    funext price c
    unfold get_composition_price
    rw [componentPrice_congr h1]
  rw [hf]

theorem get_available_quantity_congr {s t : State} (h1 : s.components = t.components)
    (h2 : s.compositions = t.compositions) (pid : Nat) :
    get_available_quantity_of_products s pid = get_available_quantity_of_products t pid := by
  unfold get_available_quantity_of_products
  rw [productcomposition_set_congr h2]
  have hf : (fun (c : ProductComposition) =>
        if 0 < c.quantity then some (s.componentStock c.component / c.quantity) else none)
      = fun c => if 0 < c.quantity then some (t.componentStock c.component / c.quantity)
          else none := by
    funext c
    rw [componentStock_congr h1]
  rw [hf]

theorem get_status_congr {s t : State} (h1 : s.components = t.components)
    (h2 : s.compositions = t.compositions) (pid : Nat) : get_status s pid = get_status t pid := by
  unfold get_status
  rw [get_available_quantity_congr h1 h2]

theorem get_productcomponent_status_congr {s t : State} (h1 : s.components = t.components)
    (h2 : s.compositions = t.compositions) (pid : Nat) :
    get_productcomponent_status s pid = get_productcomponent_status t pid := by
  unfold get_productcomponent_status State.findComponent
  rw [productcomposition_set_congr h2, h1]

theorem specCompositionSum_congr {s t : State} (h1 : s.components = t.components)
    (h2 : s.compositions = t.compositions) (pid : Nat) :
    specCompositionSum s pid = specCompositionSum t pid := by
  unfold specCompositionSum
  rw [productcomposition_set_congr h2]
  have hf : (fun (c : ProductComposition) => (c.quantity : ℚ) * s.componentPrice c.component)
      = fun c => (c.quantity : ℚ) * t.componentPrice c.component := by
    funext c
    rw [componentPrice_congr h1]
  rw [hf]

theorem findProduct_congr {s t : State} (h : s.products = t.products) (pid : Nat) :
    s.findProduct pid = t.findProduct pid := by
  unfold State.findProduct
  rw [h]

theorem findComponent_congr {s t : State} (h : s.components = t.components) (cid : Nat) :
    s.findComponent cid = t.findComponent cid := by
  unfold State.findComponent
  rw [h]

/-! Characterisation of the product re-derivation. -/

/-- Field-level description of `recalculate_new_price`: status is forced to
`STATUS_UNAVAILABLE` exactly when the first composition's component is
unavailable, `new_price` is always recomputed, and every other field is kept. -/
theorem recalculate_new_price_eq (s : State) (p : Product) :
    recalculate_new_price s p =
      { p with
        status := if get_productcomponent_status s p.id = some false then STATUS_UNAVAILABLE
          else p.status,
        new_price := p.price / 100 * ((100 : ℚ) - (p.discount : ℚ)) } := by
  unfold recalculate_new_price get_new_price
  by_cases h : get_productcomponent_status s p.id = some false
  · rw [if_pos h, if_pos h]
  · rw [if_neg h, if_neg h]

/-- Explicit form of one full product re-derivation. -/
theorem deriveProduct_eq (s : State) (q : Product) :
    deriveProduct s q =
      { q with
        price := get_price s q.id,
        status := if get_productcomponent_status s q.id = some false then STATUS_UNAVAILABLE
          else get_status s q.id,
        new_price := get_price s q.id / 100 * ((100 : ℚ) - (q.discount : ℚ)) } := by
  unfold deriveProduct
  rw [recalculate_new_price_eq]

theorem deriveProduct_id (s : State) (q : Product) : (deriveProduct s q).id = q.id := by
  rw [deriveProduct_eq]

/-- Re-deriving an already re-derived product record changes nothing. -/
theorem deriveProduct_idem (s : State) (q : Product) :
    deriveProduct s (deriveProduct s q) = deriveProduct s q := by
  rw [deriveProduct_eq s q, deriveProduct_eq]

/-- Re-derivation only reads the component and composition tables. -/
theorem deriveProduct_congr {s t : State} (h1 : s.components = t.components)
    (h2 : s.compositions = t.compositions) (q : Product) :
    deriveProduct s q = deriveProduct t q := by
  rw [deriveProduct_eq, deriveProduct_eq, get_price_congr h1 h2,
    get_productcomponent_status_congr h1 h2, get_status_congr h1 h2]

/-- The composition post-save/post-delete body is exactly a `deriveProduct`
upsert of the found owner. -/
theorem recalcOwner_eq_derive (s : State) (pid : Nat) (p : Product)
    (h : s.findProduct pid = some p) :
    recalcOwner s pid = storeProduct s (deriveProduct s p) := by
  have hid : p.id = pid := by
    have := List.find?_some h
    simpa using this
  unfold recalcOwner
  rw [h]
  dsimp only
  unfold product_save deriveProduct
  rw [hid]

/-- Upserting the same product row twice is the same as once. -/
theorem storeProduct_idem (s : State) (d : Product) :
    storeProduct (storeProduct s d) d = storeProduct s d := by
  unfold storeProduct
  by_cases h : s.products.any (fun q => q.id == d.id)
  · rw [if_pos h]
    have hany : ((s.products.map (fun q => if q.id == d.id then d else q)).any
        (fun q => q.id == d.id)) = true := by
      rcases List.any_eq_true.mp h with ⟨x, hx, hpx⟩
      refine List.any_eq_true.mpr ⟨d, ?_, beq_self_eq_true d.id⟩
      have hxm := List.mem_map_of_mem (fun q : Product => if q.id == d.id then d else q) hx
      simpa [hpx] using hxm
    rw [if_pos hany, List.map_map]
    have hcomp : ((fun q : Product => if q.id == d.id then d else q)
        ∘ fun q : Product => if q.id == d.id then d else q)
        = fun q : Product => if q.id == d.id then d else q := by
      funext q
      simp only [Function.comp_apply]
      by_cases hq : (q.id == d.id) = true
      · rw [if_pos hq, if_pos (beq_self_eq_true d.id)]
      · rw [if_neg hq, if_neg hq]
    rw [hcomp]
  · rw [if_neg h]
    have hany : ((s.products ++ [d]).any (fun q => q.id == d.id)) = true :=
      List.any_eq_true.mpr ⟨d, List.mem_append_right _ (List.mem_cons_self d []),
        beq_self_eq_true d.id⟩
    rw [if_pos hany, List.map_append]
    have h1 : s.products.map (fun q => if q.id == d.id then d else q) = s.products := by
      conv_rhs => rw [← List.map_id s.products]
      apply List.map_congr_left
      intro a ha
      have hna : ¬((a.id == d.id) = true) := fun hc => h (List.any_eq_true.mpr ⟨a, ha, hc⟩)
      rw [if_neg hna]
      rfl
    have h2 : [d].map (fun q => if q.id == d.id then d else q) = [d] := by
      simp
    rw [h1, h2]

/-! Sum, minimum and cascade bookkeeping lemmas. -/

theorem foldl_add_eq_sum (f : ProductComposition → ℚ) (l : List ProductComposition) :
    ∀ a : ℚ, l.foldl (fun acc c => acc + f c) a = a + (l.map f).sum := by
  induction l with
  | nil => intro a; simp
  | cons c l ih =>
    intro a
    rw [List.foldl_cons, ih, List.map_cons, List.sum_cons, add_assoc]

/-- The running sum of `Product.get_price` is the spec's Σ formula. -/
theorem get_price_eq_spec (s : State) (pid : Nat) :
    get_price s pid = specCompositionSum s pid := by
  unfold get_price specCompositionSum
  rw [foldl_add_eq_sum (fun c => get_composition_price s c), zero_add]
  rfl

theorem foldl_composition_save_components (l : List ProductComposition) :
    ∀ s : State,
      (l.foldl (fun st comp => composition_save st comp) s).components = s.components := by
  induction l with
  | nil => intro s; rfl
  | cons c l ih =>
    intro s
    rw [List.foldl_cons, ih, composition_save_components]

/-- Re-persisting a composition row already present (under unique row ids)
leaves the table unchanged. -/
theorem storeComposition_self (s : State) (c : ProductComposition)
    (hmem : c ∈ s.compositions) (hC : (s.compositions.map ProductComposition.id).Nodup) :
    storeComposition s c = s := by
  unfold storeComposition
  have hany : s.compositions.any (fun q => q.id == c.id) = true :=
    List.any_eq_true.mpr ⟨c, hmem, beq_self_eq_true c.id⟩
  rw [if_pos hany]
  have hmap : s.compositions.map (fun q => if q.id == c.id then c else q) = s.compositions := by
    conv_rhs => rw [← List.map_id s.compositions]
    apply List.map_congr_left
    intro a ha
    by_cases hq : (a.id == c.id) = true
    · rw [if_pos hq]
      have : a = c := List.inj_on_of_nodup_map hC ha hmem (by simpa using hq)
      rw [this]
      rfl
    · rw [if_neg hq]
      rfl
  rw [hmap]

/-- Searching a product id through a map by an id-preserving function. -/
theorem find?_map_of_id (f : Product → Product) (hf : ∀ q, (f q).id = q.id) (pid : Nat)
    (l : List Product) :
    (l.map f).find? (fun q => q.id == pid) = (l.find? (fun q => q.id == pid)).map f := by
  induction l with
  | nil => rfl
  | cons a l ih =>
    by_cases h : (a.id == pid) = true
    · have hfa : ((f a).id == pid) = true := by rw [hf]; exact h
      have e1 : List.find? (fun q : Product => q.id == pid) (f a :: l.map f) = some (f a) :=
        List.find?_cons_of_pos _ hfa
      have e2 : List.find? (fun q : Product => q.id == pid) (a :: l) = some a :=
        List.find?_cons_of_pos _ h
      rw [List.map_cons, e1, e2]
      rfl
    · have hfa : ¬(((f a).id == pid) = true) := by rw [hf]; exact h
      have e1 : List.find? (fun q : Product => q.id == pid) (f a :: l.map f)
          = List.find? (fun q => q.id == pid) (l.map f) := List.find?_cons_of_neg _ hfa
      have e2 : List.find? (fun q : Product => q.id == pid) (a :: l)
          = List.find? (fun q => q.id == pid) l := List.find?_cons_of_neg _ h
      rw [List.map_cons, e1, e2, ih]

/-- `List.any` is invariant under permutation of the list. -/
theorem any_eq_of_perm {l₁ l₂ : List ProductComposition} (h : l₁.Perm l₂)
    (f : ProductComposition → Bool) : l₁.any f = l₂.any f := by
  rw [Bool.eq_iff_iff, List.any_eq_true, List.any_eq_true]
  constructor
  · rintro ⟨x, hx, hfx⟩
    exact ⟨x, h.mem_iff.mp hx, hfx⟩
  · rintro ⟨x, hx, hfx⟩
    exact ⟨x, h.mem_iff.mpr hx, hfx⟩

theorem filterMap_if_pos (g : ProductComposition → Nat) (l : List ProductComposition)
    (hl : ∀ c ∈ l, 0 < c.quantity) :
    l.filterMap (fun c => if 0 < c.quantity then some (g c) else none) = l.map g := by
  induction l with
  | nil => rfl
  | cons a l ih =>
    have ha : (if 0 < a.quantity then some (g a) else none) = some (g a) :=
      if_pos (hl a (List.mem_cons_self a l))
    rw [List.filterMap_cons, ha, List.map_cons,
      ih (fun c hc => hl c (List.mem_cons_of_mem a hc))]

/-- When every composition of the product has positive quantity, the source's
available-quantity computation agrees with the spec's plain minimum. -/
theorem gaq_eq_specMin (s : State) (pid : Nat)
    (hq : ∀ comp ∈ s.productcomposition_set pid, 0 < comp.quantity) :
    get_available_quantity_of_products s pid = specMinAvail s pid := by
  unfold get_available_quantity_of_products specMinAvail
  rw [filterMap_if_pos _ _ hq]

/-- Normal form of the composition re-save cascade: folding `composition.save()`
over any list of rows already present in the (id-unique) composition table
re-derives exactly the products owned by a row of the list and changes nothing
else. -/
theorem foldl_save_normal (l : List ProductComposition) :
    ∀ base : State,
      (base.compositions.map ProductComposition.id).Nodup →
      (base.products.map Product.id).Nodup →
      (∀ comp ∈ l, comp ∈ base.compositions) →
      l.foldl (fun st comp => composition_save st comp) base
        = { base with
            products := base.products.map (fun q =>
              if l.any (fun comp => comp.product == q.id) then deriveProduct base q else q) } := by
  induction l with
  | nil =>
    intro base _ _ _
    simp
  | cons comp l ih =>
    intro base hC hP hl
    rw [List.foldl_cons]
    have hcomp_mem : comp ∈ base.compositions := hl comp (List.mem_cons_self comp l)
    have hstep : composition_save base comp = recalcOwner base comp.product := by
      unfold composition_save
      rw [storeComposition_self base comp hcomp_mem hC]
    rw [hstep]
    cases hfind : base.findProduct comp.product with
    | none =>
      have hro : recalcOwner base comp.product = base := by
        unfold recalcOwner
        rw [hfind]
      rw [hro, ih base hC hP (fun c hc => hl c (List.mem_cons_of_mem comp hc))]
      congr 1
      apply List.map_congr_left
      intro q hq
      have hne : (comp.product == q.id) = false := by
        cases hcc : comp.product == q.id with
        | false => rfl
        | true =>
          exfalso
          have hqc : (q.id == comp.product) = true := by
            have := (beq_iff_eq).mp hcc
            exact (beq_iff_eq).mpr this.symm
          exact absurd hqc (List.find?_eq_none.mp hfind q hq)
      rw [List.any_cons, hne, Bool.false_or]
    | some q0 =>
      have hq0id : q0.id = comp.product := by simpa using List.find?_some hfind
      have hq0mem : q0 ∈ base.products := List.mem_of_find?_eq_some hfind
      have hro : recalcOwner base comp.product = storeProduct base (deriveProduct base q0) :=
        recalcOwner_eq_derive base comp.product q0 hfind
      have hdid : (deriveProduct base q0).id = q0.id := deriveProduct_id base q0
      have hany : base.products.any (fun q => q.id == (deriveProduct base q0).id) = true := by
        apply List.any_eq_true.mpr
        refine ⟨q0, hq0mem, ?_⟩
        rw [hdid]
        exact beq_self_eq_true q0.id
      have hsp : storeProduct base (deriveProduct base q0)
          = { base with
              products := base.products.map (fun q =>
                if q.id == (deriveProduct base q0).id then deriveProduct base q0 else q) } := by
        unfold storeProduct
        rw [if_pos hany]
      rw [hro, hsp]
      have hids : (base.products.map (fun q =>
            if q.id == (deriveProduct base q0).id then deriveProduct base q0 else q)).map
            Product.id = base.products.map Product.id := by
        rw [List.map_map]
        apply List.map_congr_left
        intro a ha
        simp only [Function.comp_apply]
        by_cases hq : (a.id == (deriveProduct base q0).id) = true
        · rw [if_pos hq]
          exact ((beq_iff_eq).mp hq).symm
        · rw [if_neg hq]
      have hbase' := ih
        { base with
          products := base.products.map (fun q =>
            if q.id == (deriveProduct base q0).id then deriveProduct base q0 else q) }
        hC (by rw [hids]; exact hP) (fun c hc => hl c (List.mem_cons_of_mem comp hc))
      rw [hbase']
      have hderive : ∀ q, deriveProduct
          { base with
            products := base.products.map (fun q =>
              if q.id == (deriveProduct base q0).id then deriveProduct base q0 else q) } q
          = deriveProduct base q := fun q => deriveProduct_congr rfl rfl q
      congr 1
      rw [List.map_map]
      apply List.map_congr_left
      intro q hq
      simp only [Function.comp_apply]
      by_cases hqid : (q.id == (deriveProduct base q0).id) = true
      · rw [if_pos hqid]
        have hq_eq : q = q0 := by
          apply List.inj_on_of_nodup_map hP hq hq0mem
          rw [(beq_iff_eq).mp hqid, hdid]
        have hhead : (comp.product == q.id) = true := by
          rw [hq_eq]
          exact (beq_iff_eq).mpr hq0id.symm
        rw [List.any_cons, hhead, Bool.true_or, if_pos rfl, hderive, deriveProduct_idem,
          ite_self, hq_eq]
      · rw [if_neg hqid]
        have hhead : (comp.product == q.id) = false := by
          cases hcc : comp.product == q.id with
          | false => rfl
          | true =>
            exfalso
            apply hqid
            rw [hdid, hq0id]
            exact (beq_iff_eq).mpr ((beq_iff_eq).mp hcc).symm
        rw [List.any_cons, hhead, Bool.false_or, hderive]

/-! Concrete rows used by failing-input and witness theorems. -/

def exComponentAvail : ProductComponent :=
  { id := 1, title := "rose", price := 5, new_arrival := 0, quantity_in_stock := 10,
    quantity_of_sold := 0, available := true, show_in_filter := false }

def exComponentUnavail : ProductComponent :=
  { id := 2, title := "lily", price := 3, new_arrival := 0, quantity_in_stock := 4,
    quantity_of_sold := 0, available := false, show_in_filter := false }

def exRow1 : ProductComposition := { id := 1, product := 1, component := 1, quantity := 1 }

def exRow2 : ProductComposition := { id := 2, product := 1, component := 2, quantity := 1 }

def exProduct : Product :=
  { id := 1, category := 1, title := "bouquet", price := 8, discount := 0, new_price := 8,
    status := STATUS_AVAILABLE }

def exState : State :=
  { components := [exComponentAvail, exComponentUnavail], products := [exProduct],
    compositions := [exRow1, exRow2] }

/-- C1: the claim fails on the code.  In `exState` the product's second
composition references an unavailable component (`exComponentUnavail`), yet a
`Product` write stores status `STATUS_AVAILABLE`: `get_productcomponent_status`
returns inside the first loop iteration, so only the first composition's
component is ever inspected and the pre-save override never fires here. -/
theorem C1_unavailable_component_not_forced :
    ((exState.findComponent exRow2.component).map (fun comp => comp.available) = some false)
    ∧ exRow2 ∈ exState.productcomposition_set exProduct.id
    ∧ ((product_save exState exProduct).findProduct exProduct.id).map Product.status
        = some STATUS_AVAILABLE
    ∧ STATUS_AVAILABLE ≠ STATUS_UNAVAILABLE := by
  refine ⟨by decide, by decide, by decide, by decide⟩

/-- C3: every `Product` write stores
`new_price = price × (100 − discount) / 100` exactly. -/
theorem C3_new_price (s : State) (p : Product) (hd : p.discount ≤ 100) :
    ((product_save s p).findProduct p.id).map Product.new_price
      = some (p.price * ((100 : ℚ) - (p.discount : ℚ)) / 100) := by
  unfold product_save
  have h := findProduct_storeProduct s (recalculate_new_price s p)
  have hid : (recalculate_new_price s p).id = p.id := by rw [recalculate_new_price_eq]
  rw [hid] at h
  rw [h, recalculate_new_price_eq]
  dsimp only [Option.map_some']
  refine congrArg some ?_
  show p.price / 100 * ((100 : ℚ) - (p.discount : ℚ))
      = p.price * ((100 : ℚ) - (p.discount : ℚ)) / 100
  ring

def exProduct100 : Product :=
  { id := 7, category := 1, title := "deal", price := 100, discount := 20, new_price := 0,
    status := STATUS_REVIEW }

def exState3 : State :=
  { components := [], products := [exProduct100], compositions := [] }

theorem C3_new_price_witness :
    ((product_save exState3 exProduct100).findProduct exProduct100.id).map Product.new_price
      = some 80 := by
  rw [C3_new_price exState3 exProduct100 (by decide)]
  norm_num [exProduct100]

/-- C5: a `ProductComponent` write stores `new_arrival = 0` and
`quantity_in_stock` equal to the pre-write stock plus the pre-write arrival. -/
theorem C5_stock_normalization (s : State) (c : ProductComponent) :
    ((component_save s c).findComponent c.id).map (fun x => x.new_arrival) = some 0
  ∧ ((component_save s c).findComponent c.id).map (fun x => x.quantity_in_stock)
      = some (c.quantity_in_stock + c.new_arrival) := by
  have hcomps : (component_save s c).components
      = (storeComponent s (add_new_arrival c)).components := by
    unfold component_save component_save_order
    rw [foldl_composition_save_components]
  have hfc : (component_save s c).findComponent c.id
      = (storeComponent s (add_new_arrival c)).findComponent c.id :=
    findComponent_congr hcomps c.id
  have hsc := findComponent_storeComponent s (add_new_arrival c)
  have hidc : (add_new_arrival c).id = c.id := rfl
  rw [hidc] at hsc
  rw [hfc, hsc]
  exact ⟨rfl, rfl⟩

/-- C8: deleting a `ProductComponent` still referenced by a composition raises
`ProtectedError` (the declared `on_delete=models.PROTECT` behaviour) and a
caller that keeps its state on the error sees every record unchanged. -/
theorem C8_protected_delete (s : State) (cid : Nat)
    (href : s.compositions.any (fun c => c.component == cid) = true) :
    component_delete s cid = Except.error "ProtectedError"
    ∧ tryDeleteComponent s cid = s := by
  have h1 : component_delete s cid = Except.error "ProtectedError" := by
    unfold component_delete
    rw [if_pos href]
  refine ⟨h1, ?_⟩
  unfold tryDeleteComponent
  rw [h1]

theorem C8_protected_delete_witness :
    component_delete exState 1 = Except.error "ProtectedError"
    ∧ tryDeleteComponent exState 1 = exState :=
  C8_protected_delete exState 1 (by decide)

/-- C9: the availability computation skips zero-quantity compositions before
the floor division, so it is total; a product all of whose compositions have
quantity 0 (or that has none) gets available quantity 0 and status
`STATUS_ONLY_ORDER`. -/
theorem C9_zero_quantity_total (s : State) (pid : Nat)
    (hz : ∀ comp ∈ s.productcomposition_set pid, comp.quantity = 0) :
    get_available_quantity_of_products s pid = 0
    ∧ get_status s pid = STATUS_ONLY_ORDER := by
  have h0 : (s.productcomposition_set pid).filterMap
      (fun c => if 0 < c.quantity then some (s.componentStock c.component / c.quantity)
        else none) = [] := by
    rw [List.filterMap_eq_nil_iff]
    intro a ha
    rw [hz a ha]
    rfl
  have h1 : get_available_quantity_of_products s pid = 0 := by
    unfold get_available_quantity_of_products
    rw [h0]
  refine ⟨h1, ?_⟩
  unfold get_status
  rw [h1, if_neg (lt_irrefl 0)]

def exRowZero : ProductComposition := { id := 5, product := 9, component := 1, quantity := 0 }

def exState9 : State :=
  { components := [exComponentAvail], products := [], compositions := [exRowZero] }

theorem C9_zero_quantity_total_witness :
    get_available_quantity_of_products exState9 9 = 0
    ∧ get_status exState9 9 = STATUS_ONLY_ORDER :=
  C9_zero_quantity_total exState9 9 (by decide)

/-- C10: the `Product` pre-save step rewrites only `status` and `new_price`:
the instance's `price`, `discount`, `title` and `category` are kept, and the
write leaves the component and composition tables untouched. -/
theorem C10_pre_save_frame (s : State) (p : Product) :
    (recalculate_new_price s p).price = p.price
  ∧ (recalculate_new_price s p).discount = p.discount
  ∧ (recalculate_new_price s p).title = p.title
  ∧ (recalculate_new_price s p).category = p.category
  ∧ (recalculate_new_price s p).id = p.id
  ∧ (product_save s p).components = s.components
  ∧ (product_save s p).compositions = s.compositions := by
  refine ⟨?_, ?_, ?_, ?_, ?_, ?_, ?_⟩
  · rw [recalculate_new_price_eq]
  · rw [recalculate_new_price_eq]
  · rw [recalculate_new_price_eq]
  · rw [recalculate_new_price_eq]
  · rw [recalculate_new_price_eq]
  · unfold product_save
    rw [storeProduct_components]
  · unfold product_save
    rw [storeProduct_compositions]

/-- Price stored by the composition post-save/post-delete body. -/
theorem recalcOwner_price (s : State) (pid : Nat) (p : Product)
    (h : s.findProduct pid = some p) :
    ((recalcOwner s pid).findProduct pid).map Product.price = some (get_price s pid) := by
  have hid : p.id = pid := by simpa using List.find?_some h
  rw [recalcOwner_eq_derive s pid p h]
  have hf := findProduct_storeProduct s (deriveProduct s p)
  rw [deriveProduct_id, hid] at hf
  rw [hf, deriveProduct_eq]
  dsimp only [Option.map_some']
  rw [hid]

/-- Status stored by the composition post-save/post-delete body. -/
theorem recalcOwner_status (s : State) (pid : Nat) (p : Product)
    (h : s.findProduct pid = some p) :
    ((recalcOwner s pid).findProduct pid).map Product.status
      = some (if get_productcomponent_status s pid = some false then STATUS_UNAVAILABLE
          else get_status s pid) := by
  have hid : p.id = pid := by simpa using List.find?_some h
  rw [recalcOwner_eq_derive s pid p h]
  have hf := findProduct_storeProduct s (deriveProduct s p)
  rw [deriveProduct_id, hid] at hf
  rw [hf, deriveProduct_eq]
  dsimp only [Option.map_some']
  rw [hid]

theorem composition_delete_components (s : State) (c : ProductComposition) :
    (composition_delete s c).components = s.components := by
  unfold composition_delete
  rw [recalcOwner_components, removeComposition_components]

theorem composition_delete_compositions (s : State) (c : ProductComposition) :
    (composition_delete s c).compositions = (removeComposition s c.id).compositions := by
  unfold composition_delete
  rw [recalcOwner_compositions]

/-- C2: after a composition write or delete settles, the owning product's
stored price is the sum over the remaining composition rows of
quantity × component price; deleting the only row leaves price 0. -/
theorem C2_price_sum (s : State) (c : ProductComposition) (p : Product)
    (hp : s.findProduct c.product = some p) :
    (((composition_save s c).findProduct c.product).map Product.price
        = some (specCompositionSum (composition_save s c) c.product))
  ∧ (((composition_delete s c).findProduct c.product).map Product.price
        = some (specCompositionSum (composition_delete s c) c.product))
  ∧ ((composition_delete s c).productcomposition_set c.product = [] →
      ((composition_delete s c).findProduct c.product).map Product.price = some 0) := by
  have hsave : ((composition_save s c).findProduct c.product).map Product.price
      = some (specCompositionSum (composition_save s c) c.product) := by
    have hp1 : (storeComposition s c).findProduct c.product = some p := by
      rw [findProduct_congr (storeComposition_products s c)]
      exact hp
    have h := recalcOwner_price (storeComposition s c) c.product p hp1
    unfold composition_save
    rw [h, get_price_eq_spec]
    refine congrArg some ?_
    apply specCompositionSum_congr
    · rw [recalcOwner_components]
    · rw [recalcOwner_compositions]
  have hdel : ((composition_delete s c).findProduct c.product).map Product.price
      = some (specCompositionSum (composition_delete s c) c.product) := by
    have hp1 : (removeComposition s c.id).findProduct c.product = some p := by
      rw [findProduct_congr (removeComposition_products s c.id)]
      exact hp
    have h := recalcOwner_price (removeComposition s c.id) c.product p hp1
    unfold composition_delete
    rw [h, get_price_eq_spec]
    refine congrArg some ?_
    apply specCompositionSum_congr
    · rw [recalcOwner_components]
    · rw [recalcOwner_compositions]
  refine ⟨hsave, hdel, ?_⟩
  intro hempty
  rw [hdel]
  unfold specCompositionSum
  rw [hempty]
  rfl

def exRowOnly : ProductComposition := { id := 1, product := 1, component := 1, quantity := 2 }

def exState2 : State :=
  { components := [exComponentAvail], products := [exProduct], compositions := [exRowOnly] }

theorem C2_price_sum_witness :
    ((composition_delete exState2 exRowOnly).findProduct exRowOnly.product).map Product.price
      = some 0 :=
  (C2_price_sum exState2 exRowOnly exProduct (by decide)).2.2 (by decide)

/-- C4: after a composition write or delete whose product's composed components
are all available (and quantities positive, so the spec's minimum is defined),
the stored status is `STATUS_AVAILABLE` exactly when the minimum of
floor(stock/quantity) is positive and `STATUS_ONLY_ORDER` otherwise; a sole
composition whose component is unavailable yields `STATUS_UNAVAILABLE`. -/
theorem C4_status_derivation (s : State) (c : ProductComposition) (p : Product)
    (hp : s.findProduct c.product = some p) :
    ((∀ comp ∈ (storeComposition s c).productcomposition_set c.product,
        ((storeComposition s c).findComponent comp.component).map (fun x => x.available)
          = some true) →
      (∀ comp ∈ (storeComposition s c).productcomposition_set c.product, 0 < comp.quantity) →
      ((composition_save s c).findProduct c.product).map Product.status
        = some (if 0 < specMinAvail (storeComposition s c) c.product then STATUS_AVAILABLE
            else STATUS_ONLY_ORDER))
  ∧ ((∀ comp ∈ (removeComposition s c.id).productcomposition_set c.product,
        ((removeComposition s c.id).findComponent comp.component).map (fun x => x.available)
          = some true) →
      (∀ comp ∈ (removeComposition s c.id).productcomposition_set c.product, 0 < comp.quantity) →
      ((composition_delete s c).findProduct c.product).map Product.status
        = some (if 0 < specMinAvail (removeComposition s c.id) c.product then STATUS_AVAILABLE
            else STATUS_ONLY_ORDER))
  ∧ (∀ c0, (storeComposition s c).productcomposition_set c.product = [c0] →
      ((storeComposition s c).findComponent c0.component).map (fun x => x.available)
        = some false →
      ((composition_save s c).findProduct c.product).map Product.status
        = some STATUS_UNAVAILABLE) := by
  have hp1 : (storeComposition s c).findProduct c.product = some p := by
    rw [findProduct_congr (storeComposition_products s c)]
    exact hp
  have hp2 : (removeComposition s c.id).findProduct c.product = some p := by
    rw [findProduct_congr (removeComposition_products s c.id)]
    exact hp
  have hstatus1 := recalcOwner_status (storeComposition s c) c.product p hp1
  have hstatus2 := recalcOwner_status (removeComposition s c.id) c.product p hp2
  refine ⟨?_, ?_, ?_⟩
  · intro h_avail h_pos
    unfold composition_save
    rw [hstatus1]
    have hno : ¬(get_productcomponent_status (storeComposition s c) c.product = some false) := by
      unfold get_productcomponent_status
      cases hset : (storeComposition s c).productcomposition_set c.product with
      | nil => simp
      | cons c0 rest =>
        have hc0 : c0 ∈ (storeComposition s c).productcomposition_set c.product := by
          rw [hset]
          exact List.mem_cons_self c0 rest
        have ha := h_avail c0 hc0
        dsimp only
        rw [ha]
        simp
    rw [if_neg hno]
    unfold get_status
    rw [gaq_eq_specMin _ _ h_pos]
  · intro h_avail h_pos
    unfold composition_delete
    rw [hstatus2]
    have hno : ¬(get_productcomponent_status (removeComposition s c.id) c.product
        = some false) := by
      unfold get_productcomponent_status
      cases hset : (removeComposition s c.id).productcomposition_set c.product with
      | nil => simp
      | cons c0 rest =>
        have hc0 : c0 ∈ (removeComposition s c.id).productcomposition_set c.product := by
          rw [hset]
          exact List.mem_cons_self c0 rest
        have ha := h_avail c0 hc0
        dsimp only
        rw [ha]
        simp
    rw [if_neg hno]
    unfold get_status
    rw [gaq_eq_specMin _ _ h_pos]
  · intro c0 hset hunavail
    unfold composition_save
    rw [hstatus1]
    have hyes : get_productcomponent_status (storeComposition s c) c.product = some false := by
      unfold get_productcomponent_status
      rw [hset]
      exact hunavail
    rw [if_pos hyes]

def exComponentZeroStock : ProductComponent :=
  { id := 1, title := "rose", price := 5, new_arrival := 0, quantity_in_stock := 0,
    quantity_of_sold := 0, available := true, show_in_filter := false }

def exState4 : State :=
  { components := [exComponentZeroStock], products := [exProduct],
    compositions := [exRowOnly] }

theorem C4_status_derivation_witness :
    ((composition_save exState4 exRowOnly).findProduct exRowOnly.product).map Product.status
      = some STATUS_ONLY_ORDER := by
  have h := (C4_status_derivation exState4 exRowOnly exProduct (by decide)).1
    (by decide) (by decide)
  rw [h]
  decide

/-- C7: the product recomputation performed by the composition hooks is
idempotent: running it twice in a row with no intervening writes produces the
same state, in particular the same stored price, new_price and status. -/
theorem C7_recompute_idempotent (s : State) (pid : Nat) :
    recalcOwner (recalcOwner s pid) pid = recalcOwner s pid
  ∧ ((recalcOwner (recalcOwner s pid) pid).findProduct pid).map
        (fun p => (p.price, p.new_price, p.status))
      = ((recalcOwner s pid).findProduct pid).map
        (fun p => (p.price, p.new_price, p.status)) := by
  have hmain : recalcOwner (recalcOwner s pid) pid = recalcOwner s pid := by
    cases hfind : s.findProduct pid with
    | none =>
      have hro : recalcOwner s pid = s := by
        unfold recalcOwner
        rw [hfind]
      rw [hro]
      exact hro
    | some q0 =>
      have hid : q0.id = pid := by simpa using List.find?_some hfind
      have hro := recalcOwner_eq_derive s pid q0 hfind
      have hf := findProduct_storeProduct s (deriveProduct s q0)
      rw [deriveProduct_id, hid] at hf
      have hro2 := recalcOwner_eq_derive (storeProduct s (deriveProduct s q0)) pid
        (deriveProduct s q0) hf
      rw [hro, hro2]
      have hcongr : deriveProduct (storeProduct s (deriveProduct s q0)) (deriveProduct s q0)
          = deriveProduct s (deriveProduct s q0) :=
        deriveProduct_congr (storeProduct_components s _) (storeProduct_compositions s _) _
      rw [hcongr, deriveProduct_idem, storeProduct_idem]
  exact ⟨hmain, by rw [hmain]⟩

/-- C6: after a `ProductComponent` write, re-saving the referencing composition
rows in ANY order produces the same state as the source's order, and every
product owning such a row ends up fully re-derived (price, status, new_price)
from the component's new values. -/
theorem C6_component_cascade (s : State) (c : ProductComponent) (l : List ProductComposition)
    (hP : (s.products.map Product.id).Nodup)
    (hC : (s.compositions.map ProductComposition.id).Nodup)
    (hperm : l.Perm ((storeComponent s (add_new_arrival c)).componentCompositions
        (add_new_arrival c).id)) :
    component_save_order s c l = component_save s c
  ∧ (∀ pid p0,
      (storeComponent s (add_new_arrival c)).findProduct pid = some p0 →
      ((storeComponent s (add_new_arrival c)).componentCompositions (add_new_arrival c).id).any
          (fun comp => comp.product == pid) = true →
      (component_save s c).findProduct pid
        = some (deriveProduct (storeComponent s (add_new_arrival c)) p0)) := by
  have hbc : (storeComponent s (add_new_arrival c)).compositions = s.compositions :=
    storeComponent_compositions s (add_new_arrival c)
  have hbp : (storeComponent s (add_new_arrival c)).products = s.products :=
    storeComponent_products s (add_new_arrival c)
  have hCb : ((storeComponent s (add_new_arrival c)).compositions.map
      ProductComposition.id).Nodup := by
    rw [hbc]
    exact hC
  have hPb : ((storeComponent s (add_new_arrival c)).products.map Product.id).Nodup := by
    rw [hbp]
    exact hP
  have hrefs_mem : ∀ comp ∈ (storeComponent s (add_new_arrival c)).componentCompositions
      (add_new_arrival c).id, comp ∈ (storeComponent s (add_new_arrival c)).compositions := by
    intro comp hcomp
    have hcomp' : comp ∈ (storeComponent s (add_new_arrival c)).compositions.filter
        (fun x => x.component == (add_new_arrival c).id) := hcomp
    exact (List.mem_filter.mp hcomp').1
  have hl_mem : ∀ comp ∈ l, comp ∈ (storeComponent s (add_new_arrival c)).compositions :=
    fun comp hcomp => hrefs_mem comp (hperm.mem_iff.mp hcomp)
  have hnf_l := foldl_save_normal l (storeComponent s (add_new_arrival c)) hCb hPb hl_mem
  have hnf_r := foldl_save_normal
    ((storeComponent s (add_new_arrival c)).componentCompositions (add_new_arrival c).id)
    (storeComponent s (add_new_arrival c)) hCb hPb hrefs_mem
  constructor
  · unfold component_save_order component_save
    unfold component_save_order
    rw [hnf_l, hnf_r]
    congr 1
    apply List.map_congr_left
    intro q hq
    rw [any_eq_of_perm hperm]
  · intro pid p0 hp0 hany
    unfold component_save component_save_order
    rw [hnf_r]
    have hfid : ∀ q : Product,
        ((fun q => if ((storeComponent s (add_new_arrival c)).componentCompositions
              (add_new_arrival c).id).any (fun comp => comp.product == q.id) then
            deriveProduct (storeComponent s (add_new_arrival c)) q
          else q) q).id = q.id := by
      intro q
      by_cases h : (((storeComponent s (add_new_arrival c)).componentCompositions
          (add_new_arrival c).id).any (fun comp => comp.product == q.id)) = true
      · dsimp only
        rw [if_pos h, deriveProduct_id]
      · dsimp only
        rw [if_neg h]
    show List.find? (fun q : Product => q.id == pid)
        ((storeComponent s (add_new_arrival c)).products.map
          (fun q => if ((storeComponent s (add_new_arrival c)).componentCompositions
              (add_new_arrival c).id).any (fun comp => comp.product == q.id) then
            deriveProduct (storeComponent s (add_new_arrival c)) q
          else q))
      = some (deriveProduct (storeComponent s (add_new_arrival c)) p0)
    rw [find?_map_of_id _ hfid pid]
    have hp0' : List.find? (fun q => q.id == pid)
        (storeComponent s (add_new_arrival c)).products = some p0 := hp0
    rw [hp0']
    have hpid : p0.id = pid := by simpa using List.find?_some hp0'
    dsimp only [Option.map_some']
    rw [hpid, if_pos hany]

def exComponentNew : ProductComponent :=
  { id := 1, title := "rose", price := 7, new_arrival := 3, quantity_in_stock := 10,
    quantity_of_sold := 0, available := true, show_in_filter := false }

def exProductTwo : Product :=
  { id := 2, category := 1, title := "vase", price := 15, discount := 0, new_price := 15,
    status := STATUS_AVAILABLE }

def exRow6a : ProductComposition := { id := 1, product := 1, component := 1, quantity := 1 }

def exRow6b : ProductComposition := { id := 2, product := 2, component := 1, quantity := 3 }

def exState6 : State :=
  { components := [exComponentAvail], products := [exProduct, exProductTwo],
    compositions := [exRow6a, exRow6b] }

theorem C6_component_cascade_witness :
    component_save_order exState6 exComponentNew [exRow6b, exRow6a]
      = component_save exState6 exComponentNew :=
  (C6_component_cascade exState6 exComponentNew [exRow6b, exRow6a]
    (by decide) (by decide) (by decide)).1

end Flowershop
